import Mathlib

/-!
Verification of the viral-tweets analysis pipeline (`src/viral_tweets.ipynb`).

The notebook derives a binary `is_viral` label from the median retweet count
(cell-4), extracts three numeric features (cell-6), standardizes them with
`sklearn.preprocessing.scale` (cell-8), splits with `train_test_split`
(cell-10), scores a 5-nearest-neighbour classifier (cell-12) and sweeps
k = 1..199 (cell-14).  Machine floats are modelled as exact arithmetic
(ℚ, and ℝ where a square root occurs); library calls (`pandas.median`,
`numpy.where`, `sklearn.scale`, `train_test_split`, `KNeighborsClassifier`)
are embedded by their documented semantics.
-/

namespace ViralTweets

/-- The sorted copy of the retweet counts that `pandas.Series.median` works
on (any sorting algorithm yields the same sorted list; we use the
structurally recursive `insertionSort`). -/
def sortedCounts (l : List ℤ) : List ℤ :=
  List.insertionSort (· ≤ ·) l

/-- `pandas.Series.median` (cell-4, `all_tweets["retweet_count"].median()`):
the middle element of the sorted data for odd length, the average of the two
middle elements for even length.  On an empty series pandas returns `NaN`,
modelled here as `none`. -/
def median (l : List ℤ) : Option ℚ :=
  if l.isEmpty then none
  else if l.length % 2 = 1 then
    some (((sortedCounts l).getD (l.length / 2) 0 : ℤ) : ℚ)
  else
    some (((((sortedCounts l).getD (l.length / 2 - 1) 0 : ℤ) : ℚ) +
      (((sortedCounts l).getD (l.length / 2) 0 : ℤ) : ℚ)) / 2)

/-- The label builder (cell-4,
`np.where(all_tweets["retweet_count"] >= median_retweets, 1, 0)`): one label
per record, `1` where the retweet count is at least the median, else `0`.
When the median is `NaN` (empty input) every comparison with `NaN` is false,
so `np.where` takes the `0` branch pointwise — over an empty column this
yields the empty array. -/
def is_viral (counts : List ℤ) : List ℕ :=
  match median counts with
  | none => counts.map (fun _ => 0)
  | some m => counts.map (fun c : ℤ => if m ≤ (c : ℚ) then 1 else 0)

theorem median_isSome {l : List ℤ} (hl : l ≠ []) : ∃ m, median l = some m := by
  unfold median
  rw [if_neg (by simpa using hl : ¬ l.isEmpty = true)]
  split <;> exact ⟨_, rfl⟩

theorem is_viral_eq_map {l : List ℤ} {m : ℚ} (hm : median l = some m) :
    is_viral l = l.map (fun c : ℤ => if m ≤ (c : ℚ) then 1 else 0) := by
  unfold is_viral
  rw [hm]

/-- C1.  Label Builder correctness: on a non-empty dataset the median is
defined, and for every record the derived label is `1` iff the record's
retweet count is at least the median, and `0` iff it is below the median. -/
theorem is_viral_spec (l : List ℤ) (hl : l ≠ []) :
    ∃ m, median l = some m ∧ ∀ i : ℕ, ∀ c : ℤ, l[i]? = some c →
      ((is_viral l)[i]? = some 1 ↔ m ≤ (c : ℚ)) ∧
      ((is_viral l)[i]? = some 0 ↔ (c : ℚ) < m) := by
  obtain ⟨m, hm⟩ := median_isSome hl
  refine ⟨m, hm, fun i c hc => ?_⟩
  have hlab : (is_viral l)[i]? = some (if m ≤ (c : ℚ) then 1 else 0) := by
    rw [is_viral_eq_map hm]
    simp only [List.getElem?_map, hc, Option.map_some']
  rcases le_or_lt m (c : ℚ) with hle | hlt
  · rw [hlab, if_pos hle]
    refine ⟨⟨fun _ => hle, fun _ => rfl⟩, ?_, ?_⟩
    · intro h
      exact absurd (Option.some.inj h) one_ne_zero
    · intro h
      exact absurd hle (not_le_of_lt h)
  · rw [hlab, if_neg (not_le_of_lt hlt)]
    refine ⟨⟨?_, ?_⟩, fun _ => hlt, fun _ => rfl⟩
    · intro h
      exact absurd (Option.some.inj h).symm one_ne_zero
    · intro h
      exact absurd h (not_le_of_lt hlt)

/-- Witness for C1 at the concrete input `[3, 1, 2]` (median `2`). -/
theorem is_viral_spec_witness :
    ([3, 1, 2] : List ℤ) ≠ [] ∧
    (∃ m, median [3, 1, 2] = some m ∧ ∀ i : ℕ, ∀ c : ℤ, ([3, 1, 2] : List ℤ)[i]? = some c →
      ((is_viral [3, 1, 2])[i]? = some 1 ↔ m ≤ (c : ℚ)) ∧
      ((is_viral [3, 1, 2])[i]? = some 0 ↔ (c : ℚ) < m)) :=
  ⟨by decide, is_viral_spec [3, 1, 2] (by decide)⟩

theorem sortedCounts_perm (l : List ℤ) : (sortedCounts l).Perm l :=
  List.perm_insertionSort _ l

theorem sortedCounts_sorted (l : List ℤ) : List.Sorted (· ≤ ·) (sortedCounts l) :=
  List.sorted_insertionSort _ l

theorem sortedCounts_length (l : List ℤ) : (sortedCounts l).length = l.length :=
  (sortedCounts_perm l).length_eq

theorem median_congr {l l' : List ℤ} (hp : l.Perm l') : median l = median l' := by
  have hsort : sortedCounts l = sortedCounts l' :=
    List.eq_of_perm_of_sorted (((sortedCounts_perm l).trans hp).trans (sortedCounts_perm l').symm)
      (sortedCounts_sorted l) (sortedCounts_sorted l')
  have hE : l.isEmpty = l'.isEmpty := by
    rcases l with _ | ⟨a, t⟩
    · rw [List.nil_perm.mp hp]
    · rcases l' with _ | ⟨b, u⟩
      · exact absurd (List.perm_nil.mp hp) (by simp)
      · rfl
  unfold median
  rw [hsort, hp.length_eq, hE]

theorem labels_01 (l : List ℤ) (m : ℚ) :
    (l.map (fun c : ℤ => if m ≤ (c : ℚ) then 1 else 0)).count 1 +
      (l.map (fun c : ℤ => if m ≤ (c : ℚ) then 1 else 0)).count 0 = l.length := by
  induction l with
  | nil => rfl
  | cons a t ih =>
    by_cases h : m ≤ (a : ℚ) <;> simp [List.count_cons, h] <;> omega

theorem count_one_labels (l : List ℤ) (m : ℚ) :
    (l.map (fun c : ℤ => if m ≤ (c : ℚ) then 1 else 0)).count 1 =
      l.countP (fun c : ℤ => decide (m ≤ (c : ℚ))) := by
  induction l with
  | nil => rfl
  | cons a t ih =>
    by_cases h : m ≤ (a : ℚ) <;> simp [List.count_cons, List.countP_cons, h, ih]

theorem median_le_sorted_mid {l : List ℤ} {m : ℚ} (hl : l ≠ []) (hm : median l = some m)
    (htn : l.length / 2 < (sortedCounts l).length) :
    m ≤ ((sortedCounts l)[l.length / 2] : ℤ) := by
  have hn0 : 0 < l.length := List.length_pos.mpr hl
  unfold median at hm
  rw [if_neg (by simpa using hl : ¬ l.isEmpty = true)] at hm
  by_cases hpar : l.length % 2 = 1
  · rw [if_pos hpar] at hm
    rw [List.getD_eq_getElem _ _ htn] at hm
    rw [← Option.some.inj hm]
  · rw [if_neg hpar] at hm
    have ht1 : 1 ≤ l.length / 2 := by omega
    have htn' : l.length / 2 - 1 < (sortedCounts l).length := by omega
    rw [List.getD_eq_getElem _ _ htn, List.getD_eq_getElem _ _ htn'] at hm
    have hab : (sortedCounts l)[l.length / 2 - 1] ≤ (sortedCounts l)[l.length / 2] :=
      List.pairwise_iff_getElem.mp (sortedCounts_sorted l) _ _ htn' htn (by omega)
    have habQ : (((sortedCounts l)[l.length / 2 - 1] : ℤ) : ℚ) ≤
        (((sortedCounts l)[l.length / 2] : ℤ) : ℚ) := by exact_mod_cast hab
    rw [← Option.some.inj hm]
    linarith

theorem countP_ge_half {l : List ℤ} {m : ℚ} (hl : l ≠ []) (hm : median l = some m) :
    (l.length + 1) / 2 ≤ l.countP (fun c : ℤ => decide (m ≤ (c : ℚ))) := by
  have hn0 : 0 < l.length := List.length_pos.mpr hl
  have htn : l.length / 2 < (sortedCounts l).length := by
    rw [sortedCounts_length]; omega
  have hmid := median_le_sorted_mid hl hm htn
  have hdropsorted : (List.drop (l.length / 2) (sortedCounts l)).Pairwise (· ≤ ·) :=
    List.Pairwise.sublist (List.drop_sublist _ _) (sortedCounts_sorted l)
  have hdrop_cons := List.drop_eq_getElem_cons htn
  have hge : ∀ x ∈ List.drop (l.length / 2) (sortedCounts l), m ≤ (x : ℚ) := by
    intro x hx
    rw [hdrop_cons] at hx hdropsorted
    have hx' : (sortedCounts l)[l.length / 2] ≤ x := by
      rcases List.mem_cons.mp hx with rfl | hx''
      · exact le_refl _
      · exact (List.pairwise_cons.mp hdropsorted).1 x hx''
    exact le_trans hmid (by exact_mod_cast hx')
  have hfull : (List.drop (l.length / 2) (sortedCounts l)).countP
      (fun c : ℤ => decide (m ≤ (c : ℚ))) = (List.drop (l.length / 2) (sortedCounts l)).length :=
    List.countP_eq_length.mpr (fun a ha => decide_eq_true (hge a ha))
  have hsplit : (sortedCounts l).countP (fun c : ℤ => decide (m ≤ (c : ℚ))) =
      (List.take (l.length / 2) (sortedCounts l)).countP (fun c : ℤ => decide (m ≤ (c : ℚ))) +
      (List.drop (l.length / 2) (sortedCounts l)).countP (fun c : ℤ => decide (m ≤ (c : ℚ))) := by
    conv_lhs => rw [← List.take_append_drop (l.length / 2) (sortedCounts l)]
    rw [List.countP_append]
  have hperm : l.countP (fun c : ℤ => decide (m ≤ (c : ℚ))) =
      (sortedCounts l).countP (fun c : ℤ => decide (m ≤ (c : ℚ))) :=
    ((sortedCounts_perm l).countP_eq _).symm
  have hlen : (List.drop (l.length / 2) (sortedCounts l)).length =
      l.length - l.length / 2 := by
    rw [List.length_drop, sortedCounts_length]
  omega

/-- C8.  Reordering invariance of label assignment: on a non-empty input the
counts of labels `1` and `0` sum to the input length, and for any permutation
of the input both orders share the same median, so each record's label is the
same fixed function (`1` iff the value is at least the common median) of its
value in both orders. -/
theorem is_viral_reorder (l l' : List ℤ) (hl : l ≠ []) (hp : l.Perm l') :
    (is_viral l).count 1 + (is_viral l).count 0 = l.length ∧
    ∃ m, median l = some m ∧ median l' = some m ∧
      is_viral l = l.map (fun c : ℤ => if m ≤ (c : ℚ) then 1 else 0) ∧
      is_viral l' = l'.map (fun c : ℤ => if m ≤ (c : ℚ) then 1 else 0) := by
  obtain ⟨m, hm⟩ := median_isSome hl
  have hm' : median l' = some m := (median_congr hp).symm.trans hm
  refine ⟨?_, m, hm, hm', is_viral_eq_map hm, is_viral_eq_map hm'⟩
  rw [is_viral_eq_map hm]
  exact labels_01 l m

/-- Witness for C8 at `[1, 2, 3]` and its reordering `[3, 1, 2]`. -/
theorem is_viral_reorder_witness :
    ([1, 2, 3] : List ℤ) ≠ [] ∧ ([1, 2, 3] : List ℤ).Perm [3, 1, 2] ∧
    ((is_viral [1, 2, 3]).count 1 + (is_viral [1, 2, 3]).count 0 = ([1, 2, 3] : List ℤ).length ∧
    ∃ m, median [1, 2, 3] = some m ∧ median [3, 1, 2] = some m ∧
      is_viral [1, 2, 3] = ([1, 2, 3] : List ℤ).map (fun c : ℤ => if m ≤ (c : ℚ) then 1 else 0) ∧
      is_viral [3, 1, 2] = ([3, 1, 2] : List ℤ).map (fun c : ℤ => if m ≤ (c : ℚ) then 1 else 0)) :=
  ⟨by decide, by decide, is_viral_reorder [1, 2, 3] [3, 1, 2] (by decide) (by decide)⟩

/-- C10.  At least half the records are labelled viral: on a non-empty input,
label `1` is assigned to at least `⌈N/2⌉` records, and consequently at least
as many records receive label `1` as receive label `0`. -/
theorem is_viral_majority (l : List ℤ) (hl : l ≠ []) :
    (l.length + 1) / 2 ≤ (is_viral l).count 1 ∧
    (is_viral l).count 0 ≤ (is_viral l).count 1 := by
  obtain ⟨m, hm⟩ := median_isSome hl
  have key := countP_ge_half hl hm
  have h01 := labels_01 l m
  have hc1 := count_one_labels l m
  rw [is_viral_eq_map hm]
  omega

/-- Witness for C10 at the even-length input `[5, 1, 2, 3]`
(median `5/2`, labels `[1, 0, 0, 1]`). -/
theorem is_viral_majority_witness :
    ([5, 1, 2, 3] : List ℤ) ≠ [] ∧
    ((([5, 1, 2, 3] : List ℤ).length + 1) / 2 ≤ (is_viral [5, 1, 2, 3]).count 1 ∧
      (is_viral [5, 1, 2, 3]).count 0 ≤ (is_viral [5, 1, 2, 3]).count 1) :=
  ⟨by decide, is_viral_majority [5, 1, 2, 3] (by decide)⟩

/-- Counterexample for C4 at the concrete input `[]`: the Label Builder does
not fail there.  `pandas.Series.median` of an empty series is `NaN`
(modelled `none`), every `NaN` comparison in `np.where` is false, and over
the empty column the result is the empty array — so the builder returns the
empty label list instead of raising an `InvalidInput` error. -/
theorem is_viral_empty_counterexample :
    median ([] : List ℤ) = none ∧ is_viral ([] : List ℤ) = [] :=
  ⟨rfl, rfl⟩

/-- C4 amended: the Label Builder has no error condition.  On the empty
input the median is undefined (`NaN`, modelled `none`) and the output is the
empty label list; on every input it returns exactly one label per record
rather than failing. -/
theorem is_viral_never_fails :
    median ([] : List ℤ) = none ∧ is_viral ([] : List ℤ) = [] ∧
    ∀ l : List ℤ, (is_viral l).length = l.length := by
  refine ⟨rfl, rfl, fun l => ?_⟩
  cases hm : median l <;> simp [is_viral, hm]

/-- One row of the feature matrix built in cell-6: `tweet_length`,
`followers_count`, `friends_count`.  Feature values are modelled as exact
rationals. -/
structure Row3 where
  tweet_length : ℚ
  followers_count : ℚ
  friends_count : ℚ
deriving DecidableEq

/-- First column of the feature matrix. -/
def colTweetLength (rows : List Row3) : List ℚ := rows.map (·.tweet_length)

/-- Second column of the feature matrix. -/
def colFollowers (rows : List Row3) : List ℚ := rows.map (·.followers_count)

/-- Third column of the feature matrix. -/
def colFriends (rows : List Row3) : List ℚ := rows.map (·.friends_count)

/-- Column mean (`numpy.mean`). -/
def meanQ (l : List ℚ) : ℚ := l.sum / l.length

/-- Population variance of a column: `numpy.std(..., ddof=0)` squared,
dividing by `N` and not `N − 1`. -/
def popVar (l : List ℚ) : ℚ := (l.map (fun v => (v - meanQ l) ^ 2)).sum / l.length

/-- Population standard deviation of a column (`numpy.std`). -/
noncomputable def popStd (l : List ℚ) : ℝ := Real.sqrt ((popVar l : ℚ) : ℝ)

/-- One standardized entry of `sklearn.preprocessing.scale`: subtract the
column mean and divide by the column standard deviation, except that
`sklearn._handle_zeros_in_scale` replaces a zero standard deviation by `1`,
so a constant column is only centred and never a division error.  (A zero
standard deviation is exactly a zero variance.) -/
noncomputable def scaleEntry (col : List ℚ) (v : ℚ) : ℝ :=
  if popVar col = 0 then (v : ℝ) - ((meanQ col : ℚ) : ℝ)
  else ((v : ℝ) - ((meanQ col : ℚ) : ℝ)) / popStd col

/-- `sklearn.preprocessing.scale(data, axis=0)` (cell-8): column-wise
standardization of the `N × 3` feature matrix, with column statistics taken
over all `N` rows (train and test combined, before the split). -/
noncomputable def scale (rows : List Row3) : List (ℝ × ℝ × ℝ) :=
  rows.map (fun r =>
    (scaleEntry (colTweetLength rows) r.tweet_length,
     scaleEntry (colFollowers rows) r.followers_count,
     scaleEntry (colFriends rows) r.friends_count))

theorem popVar_nonneg (l : List ℚ) : 0 ≤ popVar l := by
  unfold popVar
  apply div_nonneg
  · apply List.sum_nonneg
    intro x hx
    obtain ⟨v, _, rfl⟩ := List.mem_map.mp hx
    exact sq_nonneg _
  · exact Nat.cast_nonneg _

theorem popStd_pos {l : List ℚ} (h : popVar l ≠ 0) : 0 < popStd l := by
  apply Real.sqrt_pos.mpr
  have hpos : 0 < popVar l := lt_of_le_of_ne (popVar_nonneg l) (Ne.symm h)
  exact_mod_cast hpos

theorem sum_of_nonneg_eq_zero {l : List ℚ} (h : l.sum = 0) (hnn : ∀ x ∈ l, 0 ≤ x) :
    ∀ x ∈ l, x = 0 := by
  induction l with
  | nil => intro x hx; exact absurd hx (List.not_mem_nil x)
  | cons a t ih =>
    have ha : 0 ≤ a := hnn a (List.mem_cons_self a t)
    have ht : 0 ≤ t.sum := List.sum_nonneg (fun x hx => hnn x (List.mem_cons_of_mem a hx))
    have hsum : a + t.sum = 0 := by simpa using h
    have ha0 : a = 0 := le_antisymm (by linarith) ha
    intro x hx
    rcases List.mem_cons.mp hx with rfl | hx'
    · exact ha0
    · exact ih (by linarith) (fun y hy => hnn y (List.mem_cons_of_mem a hy)) x hx'

theorem popVar_eq_zero_mem {l : List ℚ} (h : popVar l = 0) {v : ℚ} (hv : v ∈ l) :
    v = meanQ l := by
  have hlen : l.length ≠ 0 := by
    intro h0
    rw [List.length_eq_zero] at h0
    subst h0
    exact absurd hv (List.not_mem_nil v)
  have hn : ((l.length : ℚ)) ≠ 0 := Nat.cast_ne_zero.mpr hlen
  unfold popVar at h
  have hsum : (l.map (fun v => (v - meanQ l) ^ 2)).sum = 0 := by
    rcases div_eq_zero_iff.mp h with h' | h'
    · exact h'
    · exact absurd h' hn
  have hz := sum_of_nonneg_eq_zero hsum (by
    intro x hx
    obtain ⟨w, _, rfl⟩ := List.mem_map.mp hx
    exact sq_nonneg _)
  have hsq : (v - meanQ l) ^ 2 = 0 := hz _ (List.mem_map_of_mem _ hv)
  have := pow_eq_zero_iff (two_ne_zero) |>.mp hsq
  linarith

theorem popVar_const (l : List ℚ) (a : ℚ) (h : ∀ x ∈ l, x = a) : popVar l = 0 := by
  rcases eq_or_ne l [] with rfl | hl
  · simp [popVar]
  · have hn : ((l.length : ℚ)) ≠ 0 :=
      Nat.cast_ne_zero.mpr (fun h0 => hl (List.length_eq_zero.mp h0))
    have hmean : meanQ l = a := by
      unfold meanQ
      rw [List.sum_eq_card_nsmul l a h, nsmul_eq_mul, mul_comm, mul_div_assoc, div_self hn,
        mul_one]
    unfold popVar
    rw [List.sum_eq_zero, zero_div]
    intro x hx
    obtain ⟨v, hv, rfl⟩ := List.mem_map.mp hx
    rw [h v hv, hmean, sub_self]
    exact zero_pow two_ne_zero

theorem popVar_ne_zero_of_ne {l : List ℚ} (x y : ℚ) (hx : x ∈ l) (hy : y ∈ l)
    (hxy : x ≠ y) : popVar l ≠ 0 := fun h =>
  hxy ((popVar_eq_zero_mem h hx).trans (popVar_eq_zero_mem h hy).symm)

/-- C2.  Normalizer correctness: when every column of the feature matrix has
non-zero population variance, every column standard deviation is positive and
each entry of `scale`'s output equals `(value − μ) / σ`, where `μ` and `σ`
are the mean and population standard deviation (dividing by `N`) of the
entry's column over all `N` rows. -/
theorem scale_spec (rows : List Row3)
    (h1 : popVar (colTweetLength rows) ≠ 0)
    (h2 : popVar (colFollowers rows) ≠ 0)
    (h3 : popVar (colFriends rows) ≠ 0) :
    0 < popStd (colTweetLength rows) ∧ 0 < popStd (colFollowers rows) ∧
    0 < popStd (colFriends rows) ∧
    ∀ i : ℕ, ∀ r : Row3, rows[i]? = some r →
      (scale rows)[i]? = some
        (((r.tweet_length : ℝ) - ((meanQ (colTweetLength rows) : ℚ) : ℝ)) /
            popStd (colTweetLength rows),
         ((r.followers_count : ℝ) - ((meanQ (colFollowers rows) : ℚ) : ℝ)) /
            popStd (colFollowers rows),
         ((r.friends_count : ℝ) - ((meanQ (colFriends rows) : ℚ) : ℝ)) /
            popStd (colFriends rows)) := by
  refine ⟨popStd_pos h1, popStd_pos h2, popStd_pos h3, fun i r hr => ?_⟩
  unfold scale
  rw [List.getElem?_map, hr, Option.map_some']
  unfold scaleEntry
  rw [if_neg h1, if_neg h2, if_neg h3]

/-- Witness for C2 at the concrete matrix `[(0,0,0), (1,1,1)]` (each column
is `[0, 1]`, population variance `1/4`). -/
theorem scale_spec_witness :
    popVar (colTweetLength [⟨0, 0, 0⟩, ⟨1, 1, 1⟩]) ≠ 0 ∧
    popVar (colFollowers [⟨0, 0, 0⟩, ⟨1, 1, 1⟩]) ≠ 0 ∧
    popVar (colFriends [⟨0, 0, 0⟩, ⟨1, 1, 1⟩]) ≠ 0 ∧
    (0 < popStd (colTweetLength [⟨0, 0, 0⟩, ⟨1, 1, 1⟩]) ∧
     0 < popStd (colFollowers [⟨0, 0, 0⟩, ⟨1, 1, 1⟩]) ∧
     0 < popStd (colFriends [⟨0, 0, 0⟩, ⟨1, 1, 1⟩]) ∧
     ∀ i : ℕ, ∀ r : Row3, ([⟨0, 0, 0⟩, ⟨1, 1, 1⟩] : List Row3)[i]? = some r →
       (scale [⟨0, 0, 0⟩, ⟨1, 1, 1⟩])[i]? = some
         (((r.tweet_length : ℝ) - ((meanQ (colTweetLength [⟨0, 0, 0⟩, ⟨1, 1, 1⟩]) : ℚ) : ℝ)) /
             popStd (colTweetLength [⟨0, 0, 0⟩, ⟨1, 1, 1⟩]),
          ((r.followers_count : ℝ) - ((meanQ (colFollowers [⟨0, 0, 0⟩, ⟨1, 1, 1⟩]) : ℚ) : ℝ)) /
             popStd (colFollowers [⟨0, 0, 0⟩, ⟨1, 1, 1⟩]),
          ((r.friends_count : ℝ) - ((meanQ (colFriends [⟨0, 0, 0⟩, ⟨1, 1, 1⟩]) : ℚ) : ℝ)) /
             popStd (colFriends [⟨0, 0, 0⟩, ⟨1, 1, 1⟩]))) :=
  ⟨popVar_ne_zero_of_ne 0 1 (by simp [colTweetLength]) (by simp [colTweetLength]) zero_ne_one,
   popVar_ne_zero_of_ne 0 1 (by simp [colFollowers]) (by simp [colFollowers]) zero_ne_one,
   popVar_ne_zero_of_ne 0 1 (by simp [colFriends]) (by simp [colFriends]) zero_ne_one,
   scale_spec [⟨0, 0, 0⟩, ⟨1, 1, 1⟩]
     (popVar_ne_zero_of_ne 0 1 (by simp [colTweetLength]) (by simp [colTweetLength]) zero_ne_one)
     (popVar_ne_zero_of_ne 0 1 (by simp [colFollowers]) (by simp [colFollowers]) zero_ne_one)
     (popVar_ne_zero_of_ne 0 1 (by simp [colFriends]) (by simp [colFriends]) zero_ne_one)⟩

/-- Counterexample for C5 at the concrete matrix `[(5,2,0), (5,0,2)]`, whose
first column is constant: `scale` does not fail there.  It returns a matrix
(the constant column centred to all zeros, the others standardized), because
`sklearn._handle_zeros_in_scale` replaces the zero standard deviation by `1`
instead of raising a `DegenerateColumn` error. -/
theorem scale_degenerate_counterexample :
    scale [⟨5, 2, 0⟩, ⟨5, 0, 2⟩] =
      [((0 : ℝ), (1 : ℝ), (-1 : ℝ)), ((0 : ℝ), (-1 : ℝ), (1 : ℝ))] := by
  have e1 : popVar (colTweetLength [⟨5, 2, 0⟩, ⟨5, 0, 2⟩]) = 0 :=
    popVar_const _ 5 (by simp [colTweetLength])
  have e2 : popVar (colFollowers [⟨5, 2, 0⟩, ⟨5, 0, 2⟩]) = 1 := by
    norm_num [popVar, meanQ, colFollowers]
  have e3 : popVar (colFriends [⟨5, 2, 0⟩, ⟨5, 0, 2⟩]) = 1 := by
    norm_num [popVar, meanQ, colFriends]
  have em1 : meanQ (colTweetLength [⟨5, 2, 0⟩, ⟨5, 0, 2⟩]) = 5 := by
    norm_num [meanQ, colTweetLength]
  have em2 : meanQ (colFollowers [⟨5, 2, 0⟩, ⟨5, 0, 2⟩]) = 1 := by
    norm_num [meanQ, colFollowers]
  have em3 : meanQ (colFriends [⟨5, 2, 0⟩, ⟨5, 0, 2⟩]) = 1 := by
    norm_num [meanQ, colFriends]
  have hstd2 : popStd (colFollowers [⟨5, 2, 0⟩, ⟨5, 0, 2⟩]) = 1 := by
    rw [popStd, e2]
    simp
  have hstd3 : popStd (colFriends [⟨5, 2, 0⟩, ⟨5, 0, 2⟩]) = 1 := by
    rw [popStd, e3]
    simp
  unfold scale scaleEntry
  simp only [List.map_cons, List.map_nil, e1, e2, e3, em1, em2, em3, hstd2, hstd3]
  norm_num

theorem scaleEntry_of_var_zero {col : List ℚ} {v : ℚ} (h : popVar col = 0) (hv : v ∈ col) :
    scaleEntry col v = 0 := by
  unfold scaleEntry
  rw [if_pos h, popVar_eq_zero_mem h hv, sub_self]

/-- C5 amended: a zero-variance (constant) column — any of the three — does
not make the Normalizer fail.  `sklearn._handle_zeros_in_scale` substitutes
`σ = 1`, so `scale` still returns the full matrix (one entry triple per
input row, each column scaled by `scaleEntry`), and every entry belonging to
a zero-variance column is centred to `0`, while the other columns are
standardized as usual. -/
theorem scale_degenerate_column (rows : List Row3) (i : ℕ) (r : Row3)
    (hr : rows[i]? = some r) :
    (scale rows)[i]? = some
      (scaleEntry (colTweetLength rows) r.tweet_length,
       scaleEntry (colFollowers rows) r.followers_count,
       scaleEntry (colFriends rows) r.friends_count) ∧
    (popVar (colTweetLength rows) = 0 →
      scaleEntry (colTweetLength rows) r.tweet_length = 0) ∧
    (popVar (colFollowers rows) = 0 →
      scaleEntry (colFollowers rows) r.followers_count = 0) ∧
    (popVar (colFriends rows) = 0 →
      scaleEntry (colFriends rows) r.friends_count = 0) := by
  have hmem : r ∈ rows := List.getElem?_mem hr
  refine ⟨?_, fun h => scaleEntry_of_var_zero h (List.mem_map_of_mem _ hmem),
    fun h => scaleEntry_of_var_zero h (List.mem_map_of_mem _ hmem),
    fun h => scaleEntry_of_var_zero h (List.mem_map_of_mem _ hmem)⟩
  unfold scale
  rw [List.getElem?_map, hr, Option.map_some']

/-- Witness for C5's amended statement at the concrete matrix
`[(1,7,2), (3,7,4)]`, whose constant column is the SECOND one
(`followers_count`): the matrix is still returned and the constant column's
entry is `0`. -/
theorem scale_degenerate_column_witness :
    ([⟨1, 7, 2⟩, ⟨3, 7, 4⟩] : List Row3)[0]? = some ⟨1, 7, 2⟩ ∧
    popVar (colFollowers [⟨1, 7, 2⟩, ⟨3, 7, 4⟩]) = 0 ∧
    scaleEntry (colFollowers [⟨1, 7, 2⟩, ⟨3, 7, 4⟩]) ((⟨1, 7, 2⟩ : Row3).followers_count) = 0 ∧
    (scale [⟨1, 7, 2⟩, ⟨3, 7, 4⟩])[0]? = some
      (scaleEntry (colTweetLength [⟨1, 7, 2⟩, ⟨3, 7, 4⟩]) ((⟨1, 7, 2⟩ : Row3).tweet_length),
       scaleEntry (colFollowers [⟨1, 7, 2⟩, ⟨3, 7, 4⟩]) ((⟨1, 7, 2⟩ : Row3).followers_count),
       scaleEntry (colFriends [⟨1, 7, 2⟩, ⟨3, 7, 4⟩]) ((⟨1, 7, 2⟩ : Row3).friends_count)) :=
  ⟨rfl, popVar_const _ 7 (by simp [colFollowers]),
   (scale_degenerate_column [⟨1, 7, 2⟩, ⟨3, 7, 4⟩] 0 ⟨1, 7, 2⟩ rfl).2.2.1
     (popVar_const _ 7 (by simp [colFollowers])),
   (scale_degenerate_column [⟨1, 7, 2⟩, ⟨3, 7, 4⟩] 0 ⟨1, 7, 2⟩ rfl).1⟩

/-- Squared Euclidean distance between two feature rows.  The classifier
ranks neighbours by Euclidean distance on the 3 features; ranking by the
squared distance is identical because squaring is strictly monotone on
non-negative reals, and it keeps every computation inside ℚ. -/
def sqDist (x y : Row3) : ℚ :=
  (x.tweet_length - y.tweet_length) ^ 2 + (x.followers_count - y.followers_count) ^ 2 +
    (x.friends_count - y.friends_count) ^ 2

/-- The `k` training points nearest to `x`
(`KNeighborsClassifier.kneighbors`): the training points ordered by distance
to `x` — a deterministic order, distance ties broken by training-set
position — with the first `k` taken. -/
def kNearest (train : List (Row3 × ℕ)) (k : ℕ) (x : Row3) : List (Row3 × ℕ) :=
  (List.insertionSort (fun p q => sqDist p.1 x ≤ sqDist q.1 x) train).take k

/-- Majority vote among the neighbour labels, as in
`KNeighborsClassifier.predict` (`scipy.stats.mode`): the label with the
highest count; between equally frequent labels the smaller label wins. -/
def majorityLabel (votes : List ℕ) : ℕ :=
  (votes.foldl (fun best v =>
    if best.1 < votes.count v ∨ (votes.count v = best.1 ∧ v < best.2) then (votes.count v, v)
    else best) (0, 0)).2

/-- `KNeighborsClassifier.predict` for one test point: majority vote among
the labels of the `k` nearest training points. -/
def knnPredict (train : List (Row3 × ℕ)) (k : ℕ) (x : Row3) : ℕ :=
  majorityLabel ((kNearest train k x).map Prod.snd)

/-- The error raised by the scikit-learn calls in the sweep: `invalidK`
models the `ValueError` that `kneighbors` raises when `n_neighbors` exceeds
the number of fitted training samples, and the parameter-validation error
for `n_neighbors = 0`.  `n_neighbors` equal to the training-set size is
accepted by the library. -/
inductive KnnError where
  | invalidK
deriving DecidableEq

/-- Test accuracy of the k-nearest-neighbour classifier: number of correct
predictions divided by the total number of test predictions. -/
def knnAccuracy (train test : List (Row3 × ℕ)) (k : ℕ) : ℚ :=
  ((test.countP (fun p => knnPredict train k p.1 == p.2) : ℕ) : ℚ) / (test.length : ℚ)

/-- One iteration body of cells 12 and 14:
`KNeighborsClassifier(n_neighbors=k).fit(train_data, train_labels)` followed
by `.score(test_data, test_labels)`.  Fails with `invalidK` when `k` is zero
or exceeds the training-set size, otherwise returns the accuracy. -/
def knnScore (train test : List (Row3 × ℕ)) (k : ℕ) : Except KnnError ℚ :=
  if k = 0 ∨ train.length < k then Except.error KnnError.invalidK
  else Except.ok (knnAccuracy train test k)

/-- The sweep loop of cell-14 over a list of `k` values: each iteration fits
and scores a fresh classifier and appends the score to `scores`.  The loop
catches nothing, so an exception in any iteration propagates and aborts the
remaining iterations. -/
def sweepAux (train test : List (Row3 × ℕ)) : List ℕ → Except KnnError (List ℚ)
  | [] => Except.ok []
  | k :: ks =>
    match knnScore train test k with
    | Except.error e => Except.error e
    | Except.ok s =>
      match sweepAux train test ks with
      | Except.error e => Except.error e
      | Except.ok rest => Except.ok (s :: rest)

/-- The swept values of `k`: `range(1, 200)`, that is `1..199` inclusive. -/
def kRange : List ℕ := List.range' 1 199

/-- The `scores` list produced by the sweep of cell-14. -/
def sweepScores (train test : List (Row3 × ℕ)) : Except KnnError (List ℚ) :=
  sweepAux train test kRange

/-- The sweep output as `(k, accuracy)` pairs: `range(1, 200)` paired with
`scores`, exactly as the plot call `plt.plot(range(1, 200), scores)` does. -/
def sweepPairs (train test : List (Row3 × ℕ)) : Except KnnError (List (ℕ × ℚ)) :=
  (sweepScores train test).map (fun ss => kRange.zip ss)

/-- A concrete 199-point training set used by witnesses: every swept `k`
is valid for it. -/
def train199 : List (Row3 × ℕ) :=
  (List.range 199).map (fun i : ℕ => (⟨(i : ℚ), 0, 0⟩, 0))

theorem train199_length : train199.length = 199 := by
  unfold train199
  rw [List.length_map, List.length_range]

theorem knnScore_ok (train test : List (Row3 × ℕ)) (k : ℕ) (hk0 : k ≠ 0)
    (hk : k ≤ train.length) :
    knnScore train test k = Except.ok (knnAccuracy train test k) := by
  unfold knnScore
  rw [if_neg]
  push_neg
  exact ⟨hk0, hk⟩

theorem sweepAux_ok (train test : List (Row3 × ℕ)) (ks : List ℕ)
    (h : ∀ k ∈ ks, k ≠ 0 ∧ k ≤ train.length) :
    sweepAux train test ks = Except.ok (ks.map (knnAccuracy train test)) := by
  induction ks with
  | nil => rfl
  | cons k ks ih =>
    obtain ⟨hk0, hk⟩ := h k (List.mem_cons_self k ks)
    unfold sweepAux
    rw [knnScore_ok train test k hk0 hk, ih (fun j hj => h j (List.mem_cons_of_mem k hj))]
    rfl

theorem sweepAux_aborts (train test : List (Row3 × ℕ)) (ks : List ℕ)
    (h : ∃ k ∈ ks, k = 0 ∨ train.length < k) :
    sweepAux train test ks = Except.error KnnError.invalidK := by
  induction ks with
  | nil =>
    obtain ⟨k, hk, _⟩ := h
    exact absurd hk (List.not_mem_nil k)
  | cons k ks ih =>
    by_cases hbad : k = 0 ∨ train.length < k
    · unfold sweepAux knnScore
      rw [if_pos hbad]
    · obtain ⟨j, hj, hjbad⟩ := h
      have hj' : j ∈ ks := by
        rcases List.mem_cons.mp hj with rfl | h'
        · exact absurd hjbad hbad
        · exact h'
      push_neg at hbad
      unfold sweepAux
      rw [knnScore_ok train test k hbad.1 hbad.2, ih ⟨j, hj', hjbad⟩]

theorem zip_self_map {α β : Type} (l : List α) (f : α → β) :
    l.zip (l.map f) = l.map (fun a => (a, f a)) := by
  induction l with
  | nil => rfl
  | cons a t ih => simp [ih]

theorem sweepPairs_ok (train test : List (Row3 × ℕ)) (htrain : 199 ≤ train.length) :
    sweepPairs train test =
      Except.ok (kRange.map (fun k => (k, knnAccuracy train test k))) := by
  unfold sweepPairs sweepScores
  rw [sweepAux_ok train test kRange (fun k hk => by
    have := List.mem_range'_1.mp hk
    exact ⟨by omega, by omega⟩)]
  simp [Except.map, zip_self_map]

/-- C3.  Sweep Driver output: with at least 199 training points (so that no
swept `k` is invalid) and a non-empty test set, the sweep returns an ordered
sequence of `(k, accuracy)` pairs, exactly one pair for each `k` from 1 to
199 inclusive in increasing order, where each accuracy is the number of
correct k-nearest-neighbour predictions on the test partition divided by the
total number of test predictions. -/
theorem sweep_spec (train test : List (Row3 × ℕ)) (htrain : 199 ≤ train.length)
    (htest : test ≠ []) :
    ∃ pairs : List (ℕ × ℚ), sweepPairs train test = Except.ok pairs ∧
      pairs.length = 199 ∧
      ∀ i : ℕ, i < 199 → pairs[i]? = some (i + 1,
        ((test.countP (fun p => knnPredict train (i + 1) p.1 == p.2) : ℕ) : ℚ) /
          (test.length : ℚ)) := by
  refine ⟨kRange.map (fun k => (k, knnAccuracy train test k)),
    sweepPairs_ok train test htrain, ?_, ?_⟩
  · simp [kRange]
  · intro i hi
    have hk : kRange[i]? = some (1 + i) := by
      unfold kRange
      rw [List.getElem?_range' 1 1 hi, one_mul]
    rw [List.getElem?_map, hk, Option.map_some', Nat.add_comm 1 i]
    rfl

/-- Witness for C3, with a concrete 199-point training set and a one-point
test set. -/
theorem sweep_spec_witness :
    199 ≤ train199.length ∧ ([(⟨0, 0, 0⟩, 0)] : List (Row3 × ℕ)) ≠ [] ∧
    (∃ pairs : List (ℕ × ℚ), sweepPairs train199 [(⟨0, 0, 0⟩, 0)] = Except.ok pairs ∧
      pairs.length = 199 ∧
      ∀ i : ℕ, i < 199 → pairs[i]? = some (i + 1,
        ((([(⟨0, 0, 0⟩, 0)] : List (Row3 × ℕ)).countP
            (fun p => knnPredict train199 (i + 1) p.1 == p.2) : ℕ) : ℚ) /
          (([(⟨0, 0, 0⟩, 0)] : List (Row3 × ℕ)).length : ℚ))) :=
  ⟨by simp [train199_length], by simp,
   sweep_spec train199 [(⟨0, 0, 0⟩, 0)] (by simp [train199_length]) (by simp)⟩

/-- Counterexample for C6 at a concrete training set of size 1 and `k = 1`
equal to the training-set size: evaluating this `k` does not raise
`InvalidK`; the score call returns an accuracy normally, because
scikit-learn rejects only `n_neighbors` strictly greater than the number of
fitted samples. -/
theorem invalidK_counterexample :
    ([(⟨0, 0, 0⟩, 0)] : List (Row3 × ℕ)).length = 1 ∧
    knnScore [(⟨0, 0, 0⟩, 0)] [(⟨0, 0, 0⟩, 0)] 1 =
      Except.ok (knnAccuracy [(⟨0, 0, 0⟩, 0)] [(⟨0, 0, 0⟩, 0)] 1) :=
  ⟨rfl, knnScore_ok _ _ 1 one_ne_zero (by simp)⟩

/-- C6 amended: only `k` STRICTLY greater than the number of training points
fails with `invalidK`; `k` equal to the training-set size is valid and is
scored; and a failing `k` inside the sweep is neither skipped nor reported
for that `k` only — the whole sweep aborts with the error, because the loop
in cell-14 catches no exception. -/
theorem invalidK_behaviour (train test : List (Row3 × ℕ)) (k : ℕ) :
    (train.length < k → knnScore train test k = Except.error KnnError.invalidK) ∧
    (k ≠ 0 → k ≤ train.length →
      knnScore train test k = Except.ok (knnAccuracy train test k)) ∧
    (train.length < 199 → sweepScores train test = Except.error KnnError.invalidK) := by
  refine ⟨fun hk => ?_, fun h0 hk => knnScore_ok train test k h0 hk, fun hlen => ?_⟩
  · unfold knnScore
    rw [if_pos (Or.inr hk)]
  · unfold sweepScores
    apply sweepAux_aborts
    refine ⟨train.length + 1, ?_, Or.inr (by omega)⟩
    unfold kRange
    exact List.mem_range'_1.mpr ⟨by omega, by omega⟩

/-- Witness for C6's amended statement: a size-1 training set, where `k = 2`
errors and the whole sweep aborts, and the 199-point training set, where
`k = 7` is scored. -/
theorem invalidK_behaviour_witness :
    knnScore [(⟨0, 0, 0⟩, 0)] [(⟨0, 0, 0⟩, 0)] 2 = Except.error KnnError.invalidK ∧
    knnScore train199 [(⟨0, 0, 0⟩, 0)] 7 =
      Except.ok (knnAccuracy train199 [(⟨0, 0, 0⟩, 0)] 7) ∧
    sweepScores [(⟨0, 0, 0⟩, 0)] [(⟨0, 0, 0⟩, 0)] = Except.error KnnError.invalidK :=
  ⟨(invalidK_behaviour [(⟨0, 0, 0⟩, 0)] [(⟨0, 0, 0⟩, 0)] 2).1 (by simp),
   (invalidK_behaviour train199 [(⟨0, 0, 0⟩, 0)] 7).2.1 (by simp) (by simp [train199_length]),
   (invalidK_behaviour [(⟨0, 0, 0⟩, 0)] [(⟨0, 0, 0⟩, 0)] 1).2.2 (by simp)⟩

/-- C9.  The single `k = 5` evaluation of cell-12 and the sweep of cell-14
agree: the accuracy returned by fitting and scoring one 5-nearest-neighbour
classifier on the partition equals the accuracy in the fifth entry (index 4,
`k = 5`) of the sweep's output, since both construct the same classifier
configuration on the same partition. -/
theorem k5_matches_sweep (train test : List (Row3 × ℕ)) (htrain : 199 ≤ train.length) :
    ∃ pairs : List (ℕ × ℚ), ∃ a : ℚ,
      sweepPairs train test = Except.ok pairs ∧
      knnScore train test 5 = Except.ok a ∧
      pairs[4]? = some (5, a) := by
  refine ⟨kRange.map (fun k => (k, knnAccuracy train test k)), knnAccuracy train test 5,
    sweepPairs_ok train test htrain, knnScore_ok train test 5 (by omega) (by omega), ?_⟩
  have hk : kRange[4]? = some 5 := by
    unfold kRange
    rw [List.getElem?_range' 1 1 (by omega)]
  rw [List.getElem?_map, hk, Option.map_some']

/-- Witness for C9 with the concrete 199-point training set and a one-point
test set. -/
theorem k5_matches_sweep_witness :
    199 ≤ train199.length ∧
    (∃ pairs : List (ℕ × ℚ), ∃ a : ℚ,
      sweepPairs train199 [(⟨1, 1, 1⟩, 0)] = Except.ok pairs ∧
      knnScore train199 [(⟨1, 1, 1⟩, 0)] 5 = Except.ok a ∧
      pairs[4]? = some (5, a)) :=
  ⟨by simp [train199_length], k5_matches_sweep train199 [(⟨1, 1, 1⟩, 0)] (by simp [train199_length])⟩

/-- Reorder a list by a list of source indices: entry `q` of the result is
the entry of `xs` at index `order[q]` (indices out of range contribute
nothing). -/
def applyOrder {α : Type} (order : List ℕ) (xs : List α) : List α :=
  order.filterMap (fun j => xs[j]?)

/-- Modelled from the spec: `sklearn.model_selection.train_test_split`
(cell-10) is an external library collaborator whose implementation is not
part of this repository.  Following the spec's description of the Splitter,
it draws one deterministic shuffle of the row indices from the fixed seed —
abstracted here as the `order` parameter — and partitions: the first `nTest`
shuffled indices form the test set and the rest the training set, with the
SAME index order applied to the feature rows and to the labels.  The result
quadruple is `(train_data, test_data, train_labels, test_labels)`, the
notebook's unpacking order. -/
def train_test_split {α β : Type} (order : List ℕ) (data : List α) (labels : List β)
    (nTest : ℕ) : List α × List α × List β × List β :=
  ((applyOrder order data).drop nTest, (applyOrder order data).take nTest,
   (applyOrder order labels).drop nTest, (applyOrder order labels).take nTest)

theorem applyOrder_getElem? {α : Type} (order : List ℕ) (xs : List α)
    (hv : ∀ j ∈ order, j < xs.length) (q : ℕ) :
    (applyOrder order xs)[q]? = order[q]?.bind (fun j => xs[j]?) := by
  induction order generalizing q with
  | nil => simp [applyOrder]
  | cons j rest ih =>
    have hj : j < xs.length := hv j (List.mem_cons_self j rest)
    have hstep : applyOrder (j :: rest) xs = xs[j] :: applyOrder rest xs := by
      unfold applyOrder
      rw [List.filterMap_cons, List.getElem?_eq_getElem hj]
    rw [hstep]
    rcases q with _ | q
    · simp [List.getElem?_eq_getElem hj]
    · simpa using ih (fun i hi => hv i (List.mem_cons_of_mem j hi)) q

/-- C7.  Row-correspondence invariant of the Splitter: when features and
labels have equal length and the shuffle order is a permutation of the row
indices, every record `i` lands at some position `q` of the training or the
test partition, and at that same position the feature row is record `i`'s
feature row and the label is record `i`'s original label — the shuffle never
re-pairs features with labels. -/
theorem split_row_correspondence {α β : Type} (order : List ℕ) (data : List α)
    (labels : List β) (nTest : ℕ) (hlen : data.length = labels.length)
    (horder : order.Perm (List.range data.length)) :
    ∀ i : ℕ, i < data.length → ∃ q : ℕ,
      ((train_test_split order data labels nTest).1[q]? = data[i]? ∧
       (train_test_split order data labels nTest).2.2.1[q]? = labels[i]?) ∨
      ((train_test_split order data labels nTest).2.1[q]? = data[i]? ∧
       (train_test_split order data labels nTest).2.2.2[q]? = labels[i]?) := by
  intro i hi
  have hvd : ∀ j ∈ order, j < data.length := fun j hj =>
    List.mem_range.mp (horder.mem_iff.mp hj)
  have hvl : ∀ j ∈ order, j < labels.length := fun j hj => hlen ▸ hvd j hj
  have hmem : i ∈ order := horder.mem_iff.mpr (List.mem_range.mpr hi)
  obtain ⟨q0, hq0⟩ := List.mem_iff_getElem?.mp hmem
  have hdq : (applyOrder order data)[q0]? = data[i]? := by
    rw [applyOrder_getElem? order data hvd, hq0]
    rfl
  have hlq : (applyOrder order labels)[q0]? = labels[i]? := by
    rw [applyOrder_getElem? order labels hvl, hq0]
    rfl
  unfold train_test_split
  by_cases hq : q0 < nTest
  · exact ⟨q0, Or.inr ⟨by rw [List.getElem?_take_of_lt hq, hdq],
      by rw [List.getElem?_take_of_lt hq, hlq]⟩⟩
  · refine ⟨q0 - nTest, Or.inl ⟨?_, ?_⟩⟩
    · rw [List.getElem?_drop, show nTest + (q0 - nTest) = q0 by omega, hdq]
    · rw [List.getElem?_drop, show nTest + (q0 - nTest) = q0 by omega, hlq]

/-- Witness for C7 at `data = [10, 20, 30]`, `labels = [7, 8, 9]`, shuffle
order `[2, 0, 1]`, one test row. -/
theorem split_row_correspondence_witness :
    ([10, 20, 30] : List ℚ).length = ([7, 8, 9] : List ℕ).length ∧
    ([2, 0, 1] : List ℕ).Perm (List.range ([10, 20, 30] : List ℚ).length) ∧
    (∀ i : ℕ, i < ([10, 20, 30] : List ℚ).length → ∃ q : ℕ,
      ((train_test_split [2, 0, 1] [10, 20, 30] ([7, 8, 9] : List ℕ) 1).1[q]? =
          ([10, 20, 30] : List ℚ)[i]? ∧
       (train_test_split [2, 0, 1] [10, 20, 30] ([7, 8, 9] : List ℕ) 1).2.2.1[q]? =
          ([7, 8, 9] : List ℕ)[i]?) ∨
      ((train_test_split [2, 0, 1] [10, 20, 30] ([7, 8, 9] : List ℕ) 1).2.1[q]? =
          ([10, 20, 30] : List ℚ)[i]? ∧
       (train_test_split [2, 0, 1] [10, 20, 30] ([7, 8, 9] : List ℕ) 1).2.2.2[q]? =
          ([7, 8, 9] : List ℕ)[i]?)) :=
  ⟨by decide, by decide,
   split_row_correspondence [2, 0, 1] [10, 20, 30] [7, 8, 9] 1 (by decide) (by decide)⟩

end ViralTweets
